import Mathlib

/-!
Shallow embedding of `src/iap/iap.go` (package `iap`, client for the IAP
tunneling protocol), together with theorems settling the frozen claims
about it.

Modelling conventions:
* a websocket message and every other byte sequence is a `List Nat`
  (each entry standing for one byte; decoding reduces entries mod 256,
  which on real bytes is the identity);
* the `uint64` byte counters are naturals kept below `2 ^ 64` by the
  explicit reductions `u64`/`sub64` exactly where the Go code performs
  64-bit arithmetic (`+=` and the wrapping subtraction in the ack
  threshold test);
* `io.Pipe` conduits are modelled by the queue of bytes written and not
  yet consumed plus a `closed` flag; `pipe.Read` on an empty open pipe
  blocks, on an empty closed pipe reports end of stream (Go `io.EOF`);
* an unbuffered Go channel that has been closed makes `close` and `send`
  panic; `sendNbCh` is modelled by its closed flag plus the queue of
  announced write sizes pending for the outbound loop;
* a read of a fixed-size header (`reader.Read(buf[:k])`) is modelled by
  `readN`, which fails when fewer than `k` bytes remain in the message;
  a Go short read would instead decode stale buffer bytes, but no claim
  concerns truncated headers, and either way the frame is not processed
  normally;
* `copyNBuffer(w, r, n, buf)` (= `io.CopyBuffer` over `io.LimitReader`)
  copies `min n (remaining)` bytes and does not fail on a short source,
  which is modelled exactly: the payload delivered is `r.take len`
  while the counter still advances by the full `len`, as in the source.
-/

namespace Iap

/-- Constant `subprotoMaxFrameSize` from the source. -/
def subprotoMaxFrameSize : Nat := 16384

/-- Constant `subprotoTagSuccess` from the source (a `uint16`). -/
def subprotoTagSuccess : Nat := 0x1

/-- Constant `subprotoTagData` from the source (a `uint16`). -/
def subprotoTagData : Nat := 0x4

/-- Constant `subprotoTagAck` from the source (a `uint16`). -/
def subprotoTagAck : Nat := 0x7

/-- Byte sequences: each entry models one byte. -/
abbrev Bytes := List Nat

/-- Reduction of a natural to `uint64` range, applied where the Go code
does 64-bit additions on the byte counters. -/
def u64 (n : Nat) : Nat := n % 2 ^ 64

/-- Go `uint64` subtraction `a - b` (wrapping), for operands below
`2 ^ 64`. -/
def sub64 (a b : Nat) : Nat := (a + 2 ^ 64 - b) % 2 ^ 64

/-- Value of a big-endian byte string (`binary.BigEndian.Uint16/32/64`
applied to the bytes read). -/
def beVal (bs : Bytes) : Nat := bs.foldl (fun acc b => acc * 256 + b % 256) 0

/-- Big-endian encoding of `n` on `k` bytes (`binary.Write` with
`binary.BigEndian` of a `k`-byte unsigned integer). -/
def beBytes : Nat → Nat → Bytes
  | 0, _ => []
  | k + 1, n => beBytes k (n / 256) ++ [n % 256]

/-- Reading exactly `n` bytes from the front of a message; `none` when
fewer than `n` bytes remain (the loop then stops with a read error). -/
def readN (n : Nat) (bs : Bytes) : Option (Bytes × Bytes) :=
  if n ≤ bs.length then some (bs.take n, bs.drop n) else none

/-- Errors that terminate frame processing, mirroring the `error` values
produced in the source (`errors.New`, `fmt.Errorf`, `io.EOF`, transport
closure). -/
inductive RErr where
  | shortRead
  | lenExceedsMax
  | frameBeforeConnected
  | channelClosed
deriving DecidableEq

/-- Go runtime panics relevant to the channel operations in
`Conn.Close` and `Conn.Write`. -/
inductive GoPanic where
  | sendOnClosedChannel
  | closeOfClosedChannel
deriving DecidableEq

/-- The `Conn` struct. The two `io.Pipe` pairs are modelled by the bytes
pending in each pipe plus a closed flag for the receive side; `sendNbCh`
is modelled by its closed flag and the queue of announced sizes. -/
structure Conn where
  connected : Bool
  sessionID : Bytes
  recvNbAcked : Nat
  recvNbUnacked : Nat
  /-- Bytes written into the receive pipe and not yet consumed by `Read`. -/
  recvConduit : Bytes
  /-- Whether the receive pipe's writer has been closed (nothing in the
  source ever closes it). -/
  recvClosed : Bool
  sendNbAcked : Nat
  sendNbUnacked : Nat
  /-- Whether `close(c.sendNbCh)` has happened. -/
  sendNbChClosed : Bool
  /-- Sizes announced on `sendNbCh` and not yet taken by the outbound loop. -/
  sendAnnounced : List Nat
  /-- Bytes written into the send pipe and not yet framed. -/
  sendConduit : Bytes
  /-- Whether the websocket has been closed by `Conn.Close`. -/
  wsClosed : Bool
deriving DecidableEq

/-- The `Conn` as built in `Dial` right after the websocket dial and
`io.Pipe` calls, before the handshake `readFrame`. -/
def initConn : Conn :=
  { connected := false
    sessionID := []
    recvNbAcked := 0
    recvNbUnacked := 0
    recvConduit := []
    recvClosed := false
    sendNbAcked := 0
    sendNbUnacked := 0
    sendNbChClosed := false
    sendAnnounced := []
    sendConduit := []
    wsClosed := false }

/-- Function `(c *Conn) readSuccessFrame(buf, r)`: read a 4-byte length,
reject it above the max frame size, read that many session-id bytes,
mark the connection established. The Go code allocates the zeroed
session buffer before reading into it, so a failed session read leaves
a zero-filled id behind. -/
def Conn.readSuccessFrame (c : Conn) (r : Bytes) : Conn × Option RErr :=
  match readN 4 r with
  | none => (c, some .shortRead)
  | some (lenB, r1) =>
    let len := beVal lenB
    if len > subprotoMaxFrameSize then (c, some .lenExceedsMax)
    else
      match readN len r1 with
      | none => ({ c with sessionID := List.replicate len 0 }, some .shortRead)
      | some (sid, _) => ({ c with sessionID := sid, connected := true }, none)

/-- Function `(c *Conn) readAckFrame(buf, r)`: read an 8-byte big-endian
count and store it into `sendNbAcked` unconditionally. -/
def Conn.readAckFrame (c : Conn) (r : Bytes) : Conn × Option RErr :=
  match readN 8 r with
  | none => (c, some .shortRead)
  | some (v, _) => ({ c with sendNbAcked := beVal v }, none)

/-- Function `(c *Conn) readDataFrame(buf, r)`: read a 4-byte length,
reject it above the max frame size, then `copyNBuffer` the payload into
the receive pipe (copying what is available, like `io.CopyBuffer` over a
`LimitReader`) and advance `recvNbUnacked` by the full announced length. -/
def Conn.readDataFrame (c : Conn) (r : Bytes) : Conn × Option RErr :=
  match readN 4 r with
  | none => (c, some .shortRead)
  | some (lenB, r1) =>
    let len := beVal lenB
    if len > subprotoMaxFrameSize then (c, some .lenExceedsMax)
    else
      ({ c with
          recvConduit := c.recvConduit ++ r1.take len
          recvNbUnacked := u64 (c.recvNbUnacked + len) }, none)

/-- Encoding of the Ack frame written by `(c *Conn) writeAck(bytes)`:
tag then the 8-byte big-endian count, as one websocket message. -/
def encodeAck (n : Nat) : Bytes := beBytes 2 subprotoTagAck ++ beBytes 8 n

/-- Function `(c *Conn) readFrame()` applied to the next inbound
message: returns the new state, the Ack messages written out by the
threshold rule (at most one), and the terminating error if any. The
threshold test runs even when `readDataFrame` failed, exactly as in the
source, where the shadowed `err` of `writeAck` aside, the data-frame
error is returned after the test. -/
def Conn.readFrame (c : Conn) (msg : Bytes) : Conn × List Bytes × Option RErr :=
  match readN 2 msg with
  | none => (c, [], some .shortRead)
  | some (tagB, r) =>
    let tag := beVal tagB
    if tag = subprotoTagSuccess then
      let out := c.readSuccessFrame r
      (out.1, [], out.2)
    else if c.connected = false then
      (c, [], some .frameBeforeConnected)
    else if tag = subprotoTagAck then
      let out := c.readAckFrame r
      (out.1, [], out.2)
    else if tag = subprotoTagData then
      let out := c.readDataFrame r
      if sub64 out.1.recvNbUnacked out.1.recvNbAcked > 2 * subprotoMaxFrameSize then
        ({ out.1 with recvNbAcked := out.1.recvNbUnacked },
          [encodeAck out.1.recvNbUnacked], out.2)
      else
        (out.1, [], out.2)
    else
      (c, [], none)

/-- The inbound loop `(c *Conn) read()`: process messages one at a time,
breaking out of the loop on the first `readFrame` error; running out of
messages models the loop blocking on (or being killed by) the transport.
Returns the final state and all Ack messages written. Note that the
loop body only breaks: it never closes the receive pipe. -/
def Conn.readLoop : Conn → List Bytes → Conn × List Bytes
  | c, [] => (c, [])
  | c, m :: ms =>
    match c.readFrame m with
    | (c1, acks, some _) => (c1, acks)
    | (c1, acks, none) =>
      let out := c1.readLoop ms
      (out.1, acks ++ out.2)

/-- Method `(c *Conn) Close()`: `close(c.sendNbCh)` — which panics if the
channel is already closed — then close the websocket. The receive pipe
is left untouched. -/
def Conn.Close (c : Conn) : Except GoPanic Conn :=
  if c.sendNbChClosed then .error .closeOfClosedChannel
  else .ok { c with sendNbChClosed := true, wsClosed := true }

/-- Method `(c *Conn) Write(buf)`: send `len(buf)` on `sendNbCh` — which
panics if the channel is closed — then write the bytes into the send
pipe. -/
def Conn.Write (c : Conn) (buf : Bytes) : Except GoPanic Conn :=
  if c.sendNbChClosed then .error .sendOnClosedChannel
  else
    .ok { c with
            sendAnnounced := c.sendAnnounced ++ [buf.length]
            sendConduit := c.sendConduit ++ buf }

/-- Outcomes of `(c *Conn) Read(buf)` = `c.recvReader.Read(buf)` on the
`io.Pipe`: data when bytes are pending, end of stream when the pipe is
empty and its writer closed, otherwise the call blocks. -/
inductive ReadOutcome where
  | bytes (bs : Bytes)
  | endOfStream
  | blocked
deriving DecidableEq

/-- Result of a `Read` call against the current receive pipe state. -/
def Conn.readOutcome (c : Conn) : ReadOutcome :=
  if c.recvConduit = [] then
    if c.recvClosed then .endOfStream else .blocked
  else .bytes c.recvConduit

/-- Method `SessionID()` (byte content of the returned string). -/
def Conn.SessionID (c : Conn) : Bytes := c.sessionID

/-- Method `Sent()`: the number of bytes sent and acked. -/
def Conn.Sent (c : Conn) : Nat := c.sendNbAcked

/-- Method `Received()`: the number of bytes received and acked. -/
def Conn.Received (c : Conn) : Nat := c.recvNbAcked

/-- Outcome of `Dial` after the websocket connection succeeded: the
handshake `readFrame` on the fresh `Conn`; on error no `Conn` is
returned and the two loop goroutines are not started. -/
structure DialOut where
  conn : Option Conn
  err : Option RErr
  loopsStarted : Bool
deriving DecidableEq

/-- The tail of `Dial`: build the fresh `Conn`, run one `readFrame` on
the first inbound message, and only on success return the connection
and start `go c.read()` and `go c.write()`. -/
def dial (firstMsg : Bytes) : DialOut :=
  match initConn.readFrame firstMsg with
  | (_, _, some e) => ⟨none, some e, false⟩
  | (c1, _, none) => ⟨some c1, none, true⟩

/-- Encoded header of a Data frame as written by `writeFrame`: tag then
the 4-byte big-endian chunk length. -/
def dataHeader (nbLimit : Nat) : Bytes := beBytes 2 subprotoTagData ++ beBytes 4 nbLimit

/-- Inner loop of `(c *Conn) writeFrame()` once `nb` has been received
from `sendNbCh`: while bytes remain, clamp to the max frame size, write
one Data message (header plus that many bytes copied from the send
pipe), advance `sendNbUnacked`, and continue with the rest. Returns the
messages written, the remaining pipe content and the final counter. -/
def writeFrameLoop (conduit : Bytes) (unacked : Nat) (nb : Nat) :
    List Bytes × Bytes × Nat :=
  if _h : nb = 0 then ([], conduit, unacked)
  else
    let nbLimit := min nb subprotoMaxFrameSize
    let frame := dataHeader nbLimit ++ conduit.take nbLimit
    let rest := writeFrameLoop (conduit.drop nbLimit) (u64 (unacked + nbLimit)) (nb - nbLimit)
    (frame :: rest.1, rest.2.1, rest.2.2)
termination_by nb
decreasing_by
  simp only [subprotoMaxFrameSize]
  omega

/-- Function `(c *Conn) writeFrame()`: take the next announced size from
`sendNbCh` (a closed, drained channel yields `io.EOF`, ending the loop;
an open empty one blocks, modelled as no progress) and run the chunking
loop on it. -/
def Conn.writeFrame (c : Conn) : Conn × List Bytes × Option RErr :=
  match c.sendAnnounced with
  | [] =>
    if c.sendNbChClosed then (c, [], some .channelClosed) else (c, [], none)
  | nb :: rest =>
    let out := writeFrameLoop c.sendConduit c.sendNbUnacked nb
    ({ c with
        sendAnnounced := rest
        sendConduit := out.2.1
        sendNbUnacked := out.2.2 }, out.1, none)

/-- The outbound loop `(c *Conn) write()`, run for a bounded number of
`writeFrame` iterations (the fuel stands for how often the loop body
fires before it would next block or exit). Collects all Data messages
written. -/
def writeLoopFuel : Nat → Conn → Conn × List Bytes
  | 0, c => (c, [])
  | fuel + 1, c =>
    match c.writeFrame with
    | (c1, fs, some _) => (c1, fs)
    | (c1, fs, none) =>
      let out := writeLoopFuel fuel c1
      (out.1, fs ++ out.2)

/-- Payload carried by an encoded Data frame message (everything after
the 2-byte tag and 4-byte length header). -/
def framePayload (f : Bytes) : Bytes := f.drop 6

/-- A caller performing sequential `Write` calls; a panic aborts the
sequence (the hypotheses of the theorems below keep the channel open, so
the panic branch is never taken there). -/
def applyWrites : Conn → List Bytes → Conn
  | c, [] => c
  | c, w :: ws =>
    match c.Write w with
    | .ok c1 => applyWrites c1 ws
    | .error _ => c

/-- A connection in the state right after a successful handshake with an
empty session id: established, all counters zero, conduits empty. -/
def connectedConn : Conn := { initConn with connected := true }

/-- A connected connection on which the remote peer has already
acknowledged 7 sent bytes. -/
def connAcked7 : Conn := { connectedConn with sendNbAcked := 7, sendNbUnacked := 7 }

/-- A fresh connection right after `Close()` succeeded on it. -/
def closedInitConn : Conn := { initConn with sendNbChClosed := true, wsClosed := true }

/-- A connected connection holding 32768 received-but-unacknowledged
bytes (exactly at, not over, the ack threshold). -/
def connAt32768 : Conn := { connectedConn with recvNbUnacked := 32768 }

/-- Scenario glue for the outbound claims: apply the writes, then let
the outbound loop fire once per write. -/
def outboundRun (ws : List Bytes) : Conn × List Bytes :=
  writeLoopFuel ws.length (applyWrites connectedConn ws)

/-- State of the connection after one `writeFrame` call consumed the
announcement `nb` (with `rest` still queued): the chunking loop's
leftover pipe bytes and updated counter. -/
def afterWriteFrame (c : Conn) (nb : Nat) (rest : List Nat) : Conn :=
  { c with
      sendAnnounced := rest
      sendConduit := (writeFrameLoop c.sendConduit c.sendNbUnacked nb).2.1
      sendNbUnacked := (writeFrameLoop c.sendConduit c.sendNbUnacked nb).2.2 }

/-- A connected connection with one 20000-byte `Write` announced and
its bytes sitting in the send pipe. -/
def c3Conn : Conn :=
  { connectedConn with sendAnnounced := [20000], sendConduit := List.replicate 20000 0 }

/-- An inbound Data frame message: tag, 4-byte big-endian length field
`L`, then the payload bytes. -/
def dataFrameMsg (L : Nat) (payload : Bytes) : Bytes :=
  beBytes 2 subprotoTagData ++ (beBytes 4 L ++ payload)

/-- State after the handshake `readFrame` on a Success frame with an
empty session id. -/
def c1HandshakeConn : Conn := (initConn.readFrame [0, 1, 0, 0, 0, 0]).1

/-- State after the inbound loop then receives a Data frame whose
length field is `0xFFFFFFFF` and terminates on the resulting error. -/
def c1FinalConn : Conn := (c1HandshakeConn.readLoop [[0, 4, 255, 255, 255, 255]]).1

end Iap

namespace Iap

theorem beBytes_length (k n : Nat) : (beBytes k n).length = k := by
  induction k generalizing n with
  | zero => simp [beBytes]
  | succ k ih => simp [beBytes, ih]

theorem beVal_append_byte (xs : Bytes) (b : Nat) :
    beVal (xs ++ [b]) = beVal xs * 256 + b % 256 := by
  simp [beVal, List.foldl_append]

theorem beVal_beBytes (k n : Nat) : beVal (beBytes k n) = n % 256 ^ k := by
  induction k generalizing n with
  | zero => simp [beBytes, beVal, Nat.mod_one]
  | succ k ih =>
    rw [beBytes, beVal_append_byte, ih, Nat.mod_mod_of_dvd _ (dvd_refl 256)]
    have h1 : 256 ^ (k + 1) = 256 * 256 ^ k := by ring
    rw [h1, Nat.mod_mul]
    ring

theorem readN_exact (n : Nat) (xs ys : Bytes) (h : xs.length = n) :
    readN n (xs ++ ys) = some (xs, ys) := by
  unfold readN
  rw [if_pos (by simp [h])]
  rw [List.take_left' h, List.drop_left' h]

theorem framePayload_data (nbLimit : Nat) (p : Bytes) :
    framePayload (dataHeader nbLimit ++ p) = p := by
  unfold framePayload
  refine List.drop_left' ?_
  simp [dataHeader, beBytes_length]

theorem u64_of_lt (n : Nat) (h : n < 2 ^ 64) : u64 n = n := Nat.mod_eq_of_lt h

theorem sub64_of_le (a b : Nat) (hba : b ≤ a) (ha : a < 2 ^ 64) : sub64 a b = a - b := by
  unfold sub64
  have h64 : (2:Nat) ^ 64 = 18446744073709551616 := by norm_num
  rw [h64] at ha ⊢
  omega

theorem writeFrameLoop_zero (cd : Bytes) (ua : Nat) :
    writeFrameLoop cd ua 0 = ([], cd, ua) := by
  unfold writeFrameLoop
  rfl

theorem writeFrameLoop_pos (cd : Bytes) (ua nb : Nat) (h : nb ≠ 0) :
    writeFrameLoop cd ua nb =
      ((dataHeader (min nb subprotoMaxFrameSize) ++ cd.take (min nb subprotoMaxFrameSize)) ::
          (writeFrameLoop (cd.drop (min nb subprotoMaxFrameSize))
            (u64 (ua + min nb subprotoMaxFrameSize)) (nb - min nb subprotoMaxFrameSize)).1,
        (writeFrameLoop (cd.drop (min nb subprotoMaxFrameSize))
            (u64 (ua + min nb subprotoMaxFrameSize)) (nb - min nb subprotoMaxFrameSize)).2.1,
        (writeFrameLoop (cd.drop (min nb subprotoMaxFrameSize))
            (u64 (ua + min nb subprotoMaxFrameSize)) (nb - min nb subprotoMaxFrameSize)).2.2) := by
  conv_lhs => rw [writeFrameLoop]
  rw [dif_neg h]

/-- Joint specification of the chunking loop: the emitted frame payloads
concatenate to the first `nb` pipe bytes, the pipe keeps the rest, the
counter advances by `nb` (absent 64-bit wraparound), and every payload
respects the max frame size. -/
theorem writeFrameLoop_spec (nb : Nat) (cd : Bytes) (ua : Nat) (h : ua + nb < 2 ^ 64) :
    ((writeFrameLoop cd ua nb).1.map framePayload).flatten = cd.take nb ∧
    (writeFrameLoop cd ua nb).2.1 = cd.drop nb ∧
    (writeFrameLoop cd ua nb).2.2 = ua + nb ∧
    ∀ f ∈ (writeFrameLoop cd ua nb).1, (framePayload f).length ≤ subprotoMaxFrameSize := by
  induction nb using Nat.strong_induction_on generalizing cd ua with
  | _ nb ih =>
  by_cases h0 : nb = 0
  · subst h0
    simp [writeFrameLoop_zero]
  · rw [writeFrameLoop_pos cd ua nb h0]
    have hmax : (1:Nat) ≤ subprotoMaxFrameSize := by norm_num [subprotoMaxFrameSize]
    have h1 : 1 ≤ min nb subprotoMaxFrameSize :=
      le_min (Nat.one_le_iff_ne_zero.mpr h0) hmax
    have hle : min nb subprotoMaxFrameSize ≤ nb := min_le_left _ _
    have hu : u64 (ua + min nb subprotoMaxFrameSize) = ua + min nb subprotoMaxFrameSize :=
      u64_of_lt _ (by omega)
    rw [hu]
    obtain ⟨i1, i2, i3, i4⟩ :=
      ih (nb - min nb subprotoMaxFrameSize) (by omega)
        (cd.drop (min nb subprotoMaxFrameSize)) (ua + min nb subprotoMaxFrameSize) (by omega)
    refine ⟨?_, ?_, ?_, ?_⟩
    · simp only [List.map_cons, List.flatten_cons]
      rw [framePayload_data, i1, ← List.take_add]
      congr 1
      omega
    · rw [i2, List.drop_drop]
      congr 1
      omega
    · rw [i3]
      omega
    · intro f hf
      rcases List.mem_cons.mp hf with hfe | hfm
      · subst hfe
        rw [framePayload_data, List.length_take]
        have h2 : min nb subprotoMaxFrameSize ≤ subprotoMaxFrameSize := min_le_right _ _
        omega
      · exact i4 f hfm

/-- Claim C1 (code bug): after the handshake, the inbound loop
terminates on its first error (here an oversized Data length field),
but the receive conduit is NOT closed — nothing in `read`, `readFrame`
or `Close` ever closes the receive pipe's writer — so a blocked or
subsequent `Read` stays blocked instead of observing end-of-stream,
even after `Close()` succeeds. -/
theorem c1_recv_conduit_stays_open :
    c1HandshakeConn.connected = true ∧
    (c1HandshakeConn.readFrame [0, 4, 255, 255, 255, 255]).2.2 = some RErr.lenExceedsMax ∧
    c1FinalConn.recvClosed = false ∧
    c1FinalConn.readOutcome = ReadOutcome.blocked ∧
    (Conn.Close c1FinalConn).map Conn.readOutcome = Except.ok ReadOutcome.blocked ∧
    ReadOutcome.blocked ≠ ReadOutcome.endOfStream := by
  refine ⟨by decide, by decide, by decide, by decide, ?_, by decide⟩
  rfl

/-- Claim C2, counterexample: a second Success frame received after the
connected state is reached reassigns the session identifier (from "a",
byte 97, to "b", byte 98). -/
theorem c2_second_success_reassigns_session :
    ((initConn.readFrame [0, 1, 0, 0, 0, 1, 97]).1).SessionID = [97] ∧
    ((initConn.readFrame [0, 1, 0, 0, 0, 1, 97]).1).connected = true ∧
    (((initConn.readFrame [0, 1, 0, 0, 0, 1, 97]).1).readFrame
        [0, 1, 0, 0, 0, 1, 98]).1.SessionID = [98] ∧
    ([98] : Bytes) ≠ [97] := by
  refine ⟨by decide, by decide, by decide, by decide⟩

/-- Claim C2 as amended: the session identifier is only ever changed by
a frame whose tag decodes to Success; processing any message whose
first two bytes do not decode to the Success tag leaves `SessionID()`
unchanged. -/
theorem c2_amended_non_success_preserves_session (c : Conn) (msg : Bytes)
    (h : beVal (msg.take 2) ≠ subprotoTagSuccess) :
    (c.readFrame msg).1.SessionID = c.SessionID := by
  unfold Conn.readFrame
  unfold readN
  by_cases hl : 2 ≤ msg.length
  · rw [if_pos hl]
    simp only
    rw [if_neg h]
    by_cases hc : c.connected = false
    · rw [if_pos hc]
    · rw [if_neg hc]
      by_cases ha : beVal (msg.take 2) = subprotoTagAck
      · rw [if_pos ha]
        unfold Conn.readAckFrame
        cases readN 8 (msg.drop 2) with
        | none => rfl
        | some v => rfl
      · rw [if_neg ha]
        by_cases hd : beVal (msg.take 2) = subprotoTagData
        · rw [if_pos hd]
          unfold Conn.readDataFrame
          unfold readN
          by_cases h4 : 4 ≤ (msg.drop 2).length
          · rw [if_pos h4]
            simp only
            by_cases hx : beVal ((msg.drop 2).take 4) > subprotoMaxFrameSize
            · rw [if_pos hx]
              simp only
              by_cases ht2 :
                  sub64 c.recvNbUnacked c.recvNbAcked > 2 * subprotoMaxFrameSize
              · rw [if_pos ht2]
                rfl
              · rw [if_neg ht2]
            · rw [if_neg hx]
              simp only
              by_cases ht :
                  sub64 (u64 (c.recvNbUnacked + beVal ((msg.drop 2).take 4)))
                    c.recvNbAcked > 2 * subprotoMaxFrameSize
              · rw [if_pos ht]
                rfl
              · rw [if_neg ht]
                rfl
          · rw [if_neg h4]
            simp only
            by_cases ht2 :
                sub64 c.recvNbUnacked c.recvNbAcked > 2 * subprotoMaxFrameSize
            · rw [if_pos ht2]
              rfl
            · rw [if_neg ht2]
        · rw [if_neg hd]
  · rw [if_neg hl]

/-- Claim C2, amended-claim witness: a connected connection processing
an Ack frame keeps its session identifier. -/
theorem c2_amended_witness :
    beVal (([0, 7, 0, 0, 0, 0, 0, 0, 0, 5] : Bytes).take 2) ≠ subprotoTagSuccess ∧
    (connectedConn.readFrame [0, 7, 0, 0, 0, 0, 0, 0, 0, 5]).1.SessionID =
      connectedConn.SessionID :=
  ⟨by decide, c2_amended_non_success_preserves_session connectedConn
    [0, 7, 0, 0, 0, 0, 0, 0, 0, 5] (by decide)⟩

/-- Claim C4, counterexample: an Ack frame carries an arbitrary count
chosen by the peer; decoding Ack(5) on a fresh connected connection
(send-unacked = 0) makes send-acked = 5 exceed send-unacked = 0, and
decoding Ack(5) when send-acked was already 7 decreases it. -/
theorem c4_ack_frame_breaks_send_invariant :
    (connectedConn.readFrame [0, 7, 0, 0, 0, 0, 0, 0, 0, 5]).1.sendNbAcked = 5 ∧
    (connectedConn.readFrame [0, 7, 0, 0, 0, 0, 0, 0, 0, 5]).1.sendNbUnacked = 0 ∧
    ¬ (connectedConn.readFrame [0, 7, 0, 0, 0, 0, 0, 0, 0, 5]).1.sendNbAcked ≤
        (connectedConn.readFrame [0, 7, 0, 0, 0, 0, 0, 0, 0, 5]).1.sendNbUnacked ∧
    (connAcked7.readFrame [0, 7, 0, 0, 0, 0, 0, 0, 0, 5]).1.sendNbAcked = 5 := by
  refine ⟨by decide, by decide, by decide, by decide⟩

/-- Claim C6: if the first frame read during setup has at least a tag
and that tag is not Success, `Dial` fails with the protocol error
"frame received before connection was established", returns no
connection, and starts neither loop. -/
theorem c6_non_success_handshake_fails (msg : Bytes)
    (hlen : 2 ≤ msg.length) (htag : beVal (msg.take 2) ≠ subprotoTagSuccess) :
    dial msg = ⟨none, some RErr.frameBeforeConnected, false⟩ := by
  unfold dial Conn.readFrame readN
  rw [if_pos hlen]
  simp only
  rw [if_neg htag, if_pos (show initConn.connected = false from rfl)]

/-- Claim C6, witness: a Data frame as the first setup frame. -/
theorem c6_witness :
    2 ≤ ([0, 4, 0, 0, 0, 0] : Bytes).length ∧
    beVal (([0, 4, 0, 0, 0, 0] : Bytes).take 2) ≠ subprotoTagSuccess ∧
    dial [0, 4, 0, 0, 0, 0] = ⟨none, some RErr.frameBeforeConnected, false⟩ :=
  ⟨by decide, by decide,
    c6_non_success_handshake_fails [0, 4, 0, 0, 0, 0] (by decide) (by decide)⟩

/-- Claim C7: any Data or Success frame whose 32-bit length field
exceeds the max frame size is rejected with the protocol error, the
connection state — in particular the receive conduit and
`recvNbUnacked` — being left entirely unchanged. -/
theorem c7_oversized_length_rejected (c : Conn) (L : Nat) (r : Bytes)
    (h : subprotoMaxFrameSize < L) (h32 : L < 2 ^ 32) :
    c.readDataFrame (beBytes 4 L ++ r) = (c, some RErr.lenExceedsMax) ∧
    c.readSuccessFrame (beBytes 4 L ++ r) = (c, some RErr.lenExceedsMax) := by
  have hb : beVal (beBytes 4 L) = L := by
    rw [beVal_beBytes]
    refine Nat.mod_eq_of_lt (lt_of_lt_of_le h32 (by norm_num))
  constructor
  · unfold Conn.readDataFrame
    rw [readN_exact 4 (beBytes 4 L) r (beBytes_length 4 L)]
    simp only [hb]
    rw [if_pos h]
  · unfold Conn.readSuccessFrame
    rw [readN_exact 4 (beBytes 4 L) r (beBytes_length 4 L)]
    simp only [hb]
    rw [if_pos h]

/-- Claim C7, witness: length field 16385 on an otherwise empty frame. -/
theorem c7_witness :
    subprotoMaxFrameSize < 16385 ∧ 16385 < 2 ^ 32 ∧
    (initConn.readDataFrame (beBytes 4 16385 ++ []) = (initConn, some RErr.lenExceedsMax) ∧
      initConn.readSuccessFrame (beBytes 4 16385 ++ []) = (initConn, some RErr.lenExceedsMax)) :=
  ⟨by decide, by decide, c7_oversized_length_rejected initConn 16385 [] (by decide) (by decide)⟩

/-- Claim C9: on an established connection, a frame whose tag is none
of Success, Data, Ack is a complete no-op: same state (all counters,
session id, conduits), no Ack written, no error, so the inbound loop
continues. -/
theorem c9_unknown_tag_ignored (c : Conn) (msg : Bytes)
    (hc : c.connected = true)
    (hlen : 2 ≤ msg.length)
    (h1 : beVal (msg.take 2) ≠ subprotoTagSuccess)
    (h4 : beVal (msg.take 2) ≠ subprotoTagData)
    (h7 : beVal (msg.take 2) ≠ subprotoTagAck) :
    c.readFrame msg = (c, [], none) := by
  unfold Conn.readFrame readN
  rw [if_pos hlen]
  simp only
  rw [if_neg h1, if_neg (by rw [hc]; simp), if_neg h7, if_neg h4]

/-- Claim C9, witness: tag 0x9 on a connected connection. -/
theorem c9_witness :
    connectedConn.connected = true ∧
    2 ≤ ([0, 9] : Bytes).length ∧
    beVal (([0, 9] : Bytes).take 2) ≠ subprotoTagSuccess ∧
    beVal (([0, 9] : Bytes).take 2) ≠ subprotoTagData ∧
    beVal (([0, 9] : Bytes).take 2) ≠ subprotoTagAck ∧
    connectedConn.readFrame [0, 9] = (connectedConn, [], none) :=
  ⟨by decide, by decide, by decide, by decide, by decide,
    c9_unknown_tag_ignored connectedConn [0, 9] (by decide) (by decide)
      (by decide) (by decide) (by decide)⟩

/-- Claim C5: after a connected connection processes a Data frame with
a valid length field `L`, if the new receive-unacknowledged value
`c.recvNbUnacked + L` exceeds receive-acknowledged by strictly more
than `2 * 16384`, exactly one Ack frame carrying that value is written
and receive-acknowledged becomes equal to it; otherwise no Ack is
written and receive-acknowledged is unchanged. -/
theorem c5_ack_threshold_contract (c : Conn) (L : Nat) (payload : Bytes)
    (hc : c.connected = true)
    (hL : L ≤ subprotoMaxFrameSize)
    (hinv : c.recvNbAcked ≤ c.recvNbUnacked)
    (hbound : c.recvNbUnacked + L < 2 ^ 64) :
    (c.readFrame (dataFrameMsg L payload)).1.recvNbUnacked = c.recvNbUnacked + L ∧
    (c.recvNbUnacked + L - c.recvNbAcked > 2 * subprotoMaxFrameSize →
      (c.readFrame (dataFrameMsg L payload)).1.recvNbAcked = c.recvNbUnacked + L ∧
      (c.readFrame (dataFrameMsg L payload)).2.1 = [encodeAck (c.recvNbUnacked + L)]) ∧
    (¬ c.recvNbUnacked + L - c.recvNbAcked > 2 * subprotoMaxFrameSize →
      (c.readFrame (dataFrameMsg L payload)).1.recvNbAcked = c.recvNbAcked ∧
      (c.readFrame (dataFrameMsg L payload)).2.1 = []) := by
  have hb4 : beVal (beBytes 4 L) = L := by
    rw [beVal_beBytes]
    refine Nat.mod_eq_of_lt ?_
    have : subprotoMaxFrameSize < 256 ^ 4 := by norm_num [subprotoMaxFrameSize]
    omega
  have htag : beVal (beBytes 2 subprotoTagData) = subprotoTagData := by
    rw [beVal_beBytes]
    norm_num [subprotoTagData]
  have hrw : c.readFrame (dataFrameMsg L payload) =
      (if sub64 (u64 (c.recvNbUnacked + L)) c.recvNbAcked > 2 * subprotoMaxFrameSize then
        ({ c with
            recvConduit := c.recvConduit ++ payload.take L
            recvNbUnacked := u64 (c.recvNbUnacked + L)
            recvNbAcked := u64 (c.recvNbUnacked + L) },
          [encodeAck (u64 (c.recvNbUnacked + L))], none)
      else
        ({ c with
            recvConduit := c.recvConduit ++ payload.take L
            recvNbUnacked := u64 (c.recvNbUnacked + L) }, [], none)) := by
    unfold Conn.readFrame dataFrameMsg
    rw [readN_exact 2 (beBytes 2 subprotoTagData) _ (beBytes_length 2 _)]
    simp only [htag]
    rw [if_neg (by norm_num [subprotoTagData, subprotoTagSuccess])]
    rw [if_neg (by rw [hc]; simp)]
    rw [if_neg (by norm_num [subprotoTagData, subprotoTagAck])]
    rw [if_pos trivial]
    unfold Conn.readDataFrame
    rw [readN_exact 4 (beBytes 4 L) payload (beBytes_length 4 L)]
    simp only [hb4]
    rw [if_neg (show ¬ L > subprotoMaxFrameSize by omega)]
  have hu : u64 (c.recvNbUnacked + L) = c.recvNbUnacked + L := u64_of_lt _ hbound
  have hs : sub64 (u64 (c.recvNbUnacked + L)) c.recvNbAcked =
      c.recvNbUnacked + L - c.recvNbAcked := by
    rw [hu]
    exact sub64_of_le _ _ (by omega) hbound
  rw [hrw, hs]
  by_cases ht : c.recvNbUnacked + L - c.recvNbAcked > 2 * subprotoMaxFrameSize
  · rw [if_pos ht]
    refine ⟨by simp [hu], fun _ => ⟨by simp [hu], by simp [hu]⟩, fun hn => absurd ht hn⟩
  · rw [if_neg ht]
    refine ⟨by simp [hu], fun hp => absurd hp ht, fun _ => ⟨rfl, rfl⟩⟩

/-- Claim C5, witness: a connected connection that already holds 32768
unacknowledged bytes receives one more full-size Data frame, crossing
the threshold. -/
theorem c5_witness :
    connAt32768.connected = true ∧
    16384 ≤ subprotoMaxFrameSize ∧
    connAt32768.recvNbAcked ≤ connAt32768.recvNbUnacked ∧
    connAt32768.recvNbUnacked + 16384 < 2 ^ 64 ∧
    ((connAt32768.readFrame (dataFrameMsg 16384 [])).1.recvNbUnacked =
        connAt32768.recvNbUnacked + 16384 ∧
      (connAt32768.recvNbUnacked + 16384 - connAt32768.recvNbAcked >
          2 * subprotoMaxFrameSize →
        (connAt32768.readFrame (dataFrameMsg 16384 [])).1.recvNbAcked =
            connAt32768.recvNbUnacked + 16384 ∧
        (connAt32768.readFrame (dataFrameMsg 16384 [])).2.1 =
            [encodeAck (connAt32768.recvNbUnacked + 16384)]) ∧
      (¬ connAt32768.recvNbUnacked + 16384 - connAt32768.recvNbAcked >
          2 * subprotoMaxFrameSize →
        (connAt32768.readFrame (dataFrameMsg 16384 [])).1.recvNbAcked =
            connAt32768.recvNbAcked ∧
        (connAt32768.readFrame (dataFrameMsg 16384 [])).2.1 = [])) :=
  ⟨by decide, by decide, by decide, by decide,
    c5_ack_threshold_contract connAt32768 16384 [] (by decide) (by decide)
      (by decide) (by decide)⟩

theorem readN_all (n : Nat) (bs : Bytes) (h : bs.length = n) :
    readN n bs = some (bs, []) := by
  unfold readN
  subst h
  simp

theorem writeFrame_cons (c : Conn) (nb : Nat) (rest : List Nat)
    (h : c.sendAnnounced = nb :: rest) :
    c.writeFrame =
      (afterWriteFrame c nb rest, (writeFrameLoop c.sendConduit c.sendNbUnacked nb).1, none) := by
  unfold Conn.writeFrame afterWriteFrame
  rw [h]

theorem writeFrame_preserves (c : Conn) :
    c.writeFrame.1.sendNbAcked = c.sendNbAcked ∧ c.writeFrame.1.connected = c.connected := by
  unfold Conn.writeFrame
  cases c.sendAnnounced with
  | nil =>
    dsimp only
    split
    · exact ⟨rfl, rfl⟩
    · exact ⟨rfl, rfl⟩
  | cons nb rest => exact ⟨rfl, rfl⟩

/-- Field bookkeeping of a sequence of `Write` calls on an open
channel: they enqueue the byte counts in call order and append the
bytes to the send pipe, touching nothing else. -/
theorem applyWrites_spec (ws : List Bytes) (c : Conn) (h : c.sendNbChClosed = false) :
    (applyWrites c ws).sendAnnounced = c.sendAnnounced ++ ws.map List.length ∧
    (applyWrites c ws).sendConduit = c.sendConduit ++ ws.flatten ∧
    (applyWrites c ws).sendNbUnacked = c.sendNbUnacked ∧
    (applyWrites c ws).sendNbAcked = c.sendNbAcked ∧
    (applyWrites c ws).connected = c.connected := by
  induction ws generalizing c with
  | nil => simp [applyWrites]
  | cons w ws ih =>
    unfold applyWrites Conn.Write
    rw [if_neg (by simp [h])]
    obtain ⟨a1, a2, a3, a4, a5⟩ :=
      ih { c with sendAnnounced := c.sendAnnounced ++ [w.length], sendConduit := c.sendConduit ++ w } (by simp [h])
    refine ⟨?_, ?_, ?_, ?_, ?_⟩
    · rw [a1]
      simp
    · rw [a2]
      simp
    · rw [a3]
    · rw [a4]
    · rw [a5]

/-- The outbound loop, given fuel for one `writeFrame` per queued
announcement, drains the whole queue: the Data frames it writes carry
exactly the pipe's bytes split at the announced sizes, the counter
advances by the total (absent wraparound), and nothing else changes. -/
theorem writeLoop_drain (ws : List Bytes) (c : Conn)
    (hq : c.sendAnnounced = ws.map List.length)
    (hcd : c.sendConduit = ws.flatten)
    (hb : c.sendNbUnacked + ws.flatten.length < 2 ^ 64) :
    ((writeLoopFuel ws.length c).2.map framePayload).flatten = ws.flatten ∧
    (∀ f ∈ (writeLoopFuel ws.length c).2, (framePayload f).length ≤ subprotoMaxFrameSize) ∧
    (writeLoopFuel ws.length c).1.sendNbUnacked = c.sendNbUnacked + ws.flatten.length ∧
    (writeLoopFuel ws.length c).1.sendNbAcked = c.sendNbAcked ∧
    (writeLoopFuel ws.length c).1.connected = c.connected := by
  induction ws generalizing c with
  | nil => simp [writeLoopFuel]
  | cons w ws ih =>
    have hcd2 : c.sendConduit = w ++ ws.flatten := by simpa using hcd
    have hq2 : c.sendAnnounced = w.length :: ws.map List.length := by simpa using hq
    have hfl : (w :: ws).flatten.length = w.length + ws.flatten.length := by simp
    have hlen : c.sendNbUnacked + w.length < 2 ^ 64 := by
      rw [hfl] at hb
      omega
    obtain ⟨s1, s2, s3, s4⟩ := writeFrameLoop_spec w.length c.sendConduit c.sendNbUnacked hlen
    have hstep := writeFrame_cons c w.length (ws.map List.length) hq2
    have hc1q : (afterWriteFrame c w.length (ws.map List.length)).sendAnnounced =
        ws.map List.length := rfl
    have hc1cd : (afterWriteFrame c w.length (ws.map List.length)).sendConduit = ws.flatten := by
      show (writeFrameLoop c.sendConduit c.sendNbUnacked w.length).2.1 = ws.flatten
      rw [s2, hcd2]
      exact List.drop_left w (ws.flatten)
    have hc1ua : (afterWriteFrame c w.length (ws.map List.length)).sendNbUnacked =
        c.sendNbUnacked + w.length := s3
    have hc1b : (afterWriteFrame c w.length (ws.map List.length)).sendNbUnacked +
        ws.flatten.length < 2 ^ 64 := by
      rw [hc1ua]
      rw [hfl] at hb
      omega
    obtain ⟨d1, d2, d3, d4, d5⟩ :=
      ih (afterWriteFrame c w.length (ws.map List.length)) hc1q hc1cd hc1b
    have htake : (c.sendConduit.take w.length) = w := by
      rw [hcd2]
      exact List.take_left w (ws.flatten)
    simp only [List.length_cons, writeLoopFuel, hstep]
    refine ⟨?_, ?_, ?_, ?_, ?_⟩
    · simp only [List.map_append, List.flatten_append]
      rw [d1, s1, htake]
      simp
    · intro f hf
      rcases List.mem_append.mp hf with hf1 | hf2
      · exact s4 f hf1
      · exact d2 f hf2
    · rw [d3, hc1ua, hfl]
      omega
    · rw [d4]
      rfl
    · rw [d5]
      rfl

/-- Payload sizes of the two frames produced by chunking a single
20000-byte write. -/
theorem chunk20000 :
    (writeFrameLoop (List.replicate 20000 0) 0 20000).1.map
        (fun f => (framePayload f).length) = [16384, 3616] := by
  have e1 : min 20000 subprotoMaxFrameSize = 16384 := by norm_num [subprotoMaxFrameSize]
  have e2 : min 16384 20000 = 16384 := by norm_num
  have e3 : 20000 - 16384 = 3616 := by norm_num
  have e4 : min 3616 subprotoMaxFrameSize = 3616 := by norm_num [subprotoMaxFrameSize]
  have e5 : min 3616 3616 = 3616 := by norm_num
  have e6 : 3616 - 3616 = 0 := by norm_num
  rw [writeFrameLoop_pos _ _ _ (by norm_num), e1, List.drop_replicate, List.take_replicate,
    e2, e3]
  rw [writeFrameLoop_pos _ _ _ (by norm_num), e4, List.drop_replicate, List.take_replicate,
    e5, e6]
  rw [writeFrameLoop_zero]
  dsimp only
  rw [List.map_cons, List.map_cons, List.map_nil, framePayload_data, framePayload_data,
    List.length_replicate, List.length_replicate]

/-- Claim C8: over any sequence of sequential `Write` calls, the
outbound loop emits Data frames whose concatenated payloads equal the
concatenation of the inputs in call order, every payload at most 16384
bytes, and `sendNbUnacked` ends up advanced by the total number of
bytes; in particular a single 20000-byte write yields exactly the
payload sizes 16384 and 3616. -/
theorem c8_write_chunking_faithful (ws : List Bytes) (h : ws.flatten.length < 2 ^ 64) :
    ((outboundRun ws).2.map framePayload).flatten = ws.flatten ∧
    (∀ f ∈ (outboundRun ws).2, (framePayload f).length ≤ subprotoMaxFrameSize) ∧
    (outboundRun ws).1.sendNbUnacked = ws.flatten.length ∧
    (ws = [List.replicate 20000 0] →
      (outboundRun ws).2.map (fun f => (framePayload f).length) = [16384, 3616]) := by
  obtain ⟨a1, a2, a3, a4, a5⟩ := applyWrites_spec ws connectedConn rfl
  have hq : (applyWrites connectedConn ws).sendAnnounced = ws.map List.length := by
    rw [a1]
    rfl
  have hcd : (applyWrites connectedConn ws).sendConduit = ws.flatten := by
    rw [a2]
    rfl
  have hua : (applyWrites connectedConn ws).sendNbUnacked = 0 := a3
  obtain ⟨d1, d2, d3, d4, d5⟩ := writeLoop_drain ws (applyWrites connectedConn ws) hq hcd
    (by rw [hua]; omega)
  refine ⟨d1, d2, ?_, ?_⟩
  · show (writeLoopFuel ws.length (applyWrites connectedConn ws)).1.sendNbUnacked =
      ws.flatten.length
    rw [d3, hua]
    omega
  intro hws
  subst hws
  have hstep := writeFrame_cons (applyWrites connectedConn [List.replicate 20000 0]) 20000 []
    (by rw [hq]; rw [List.map_cons, List.map_nil, List.length_replicate])
  have hcd0 : (applyWrites connectedConn [List.replicate 20000 0]).sendConduit =
      List.replicate 20000 0 := by
    rw [hcd]
    rw [List.flatten_cons, List.flatten_nil, List.append_nil]
  have hua0 : (applyWrites connectedConn [List.replicate 20000 0]).sendNbUnacked = 0 := hua
  rw [hcd0, hua0] at hstep
  show ((writeLoopFuel [List.replicate 20000 (0:Nat)].length
      (applyWrites connectedConn [List.replicate 20000 0])).2.map
        (fun f => (framePayload f).length)) = [16384, 3616]
  simp only [List.length_cons, List.length_nil, writeLoopFuel, hstep]
  rw [List.append_nil]
  exact chunk20000

/-- Claim C8, witness: two small writes. -/
theorem c8_witness :
    (([[1], [2, 3]] : List Bytes).flatten.length < 2 ^ 64) ∧
    (((outboundRun [[1], [2, 3]]).2.map framePayload).flatten =
        ([[1], [2, 3]] : List Bytes).flatten ∧
    (∀ f ∈ (outboundRun [[1], [2, 3]]).2, (framePayload f).length ≤ subprotoMaxFrameSize) ∧
    (outboundRun [[1], [2, 3]]).1.sendNbUnacked = ([[1], [2, 3]] : List Bytes).flatten.length ∧
    (([[1], [2, 3]] : List Bytes) = [List.replicate 20000 0] →
      (outboundRun [[1], [2, 3]]).2.map (fun f => (framePayload f).length) = [16384, 3616])) :=
  ⟨by norm_num, c8_write_chunking_faithful [[1], [2, 3]] (by norm_num)⟩

/-- Claim C3, counterexample: a fresh connected connection transmits a
single announced 20000-byte write as two Data frames, after which
`Sent()` returns 0, not 20000 — it tracks `sendNbAcked`, which only an
inbound Ack frame ever changes, while the transmitted-byte counter
`sendNbUnacked` is at 20000. -/
theorem c3_sent_zero_after_transmit :
    (outboundRun [List.replicate 20000 0]).2.length = 2 ∧
    (outboundRun [List.replicate 20000 0]).1.sendNbUnacked = 20000 ∧
    (outboundRun [List.replicate 20000 0]).1.Sent = 0 ∧
    (0 : Nat) ≠ 20000 := by
  obtain ⟨a1, a2, a3, a4, a5⟩ :=
    applyWrites_spec [List.replicate 20000 0] connectedConn rfl
  have hq : (applyWrites connectedConn [List.replicate 20000 0]).sendAnnounced =
      [List.replicate 20000 (0:Nat)].map List.length := by
    rw [a1]
    rfl
  have hcd : (applyWrites connectedConn [List.replicate 20000 0]).sendConduit =
      ([List.replicate 20000 (0:Nat)] : List Bytes).flatten := by
    rw [a2]
    rfl
  have hua0 : (applyWrites connectedConn [List.replicate 20000 0]).sendNbUnacked = 0 := a3
  have hflat : ([List.replicate 20000 (0:Nat)] : List Bytes).flatten.length = 20000 := by
    rw [List.flatten_cons, List.flatten_nil, List.append_nil, List.length_replicate]
  obtain ⟨d1, d2, d3, d4, d5⟩ :=
    writeLoop_drain [List.replicate 20000 0] (applyWrites connectedConn [List.replicate 20000 0])
      hq hcd (by rw [hua0, hflat]; norm_num)
  have hstep := writeFrame_cons (applyWrites connectedConn [List.replicate 20000 0]) 20000 []
    (by rw [hq]; rw [List.map_cons, List.map_nil, List.length_replicate])
  have hcd0 : (applyWrites connectedConn [List.replicate 20000 0]).sendConduit =
      List.replicate 20000 0 := by
    rw [hcd]
    rw [List.flatten_cons, List.flatten_nil, List.append_nil]
  rw [hcd0, hua0] at hstep
  have hframes : (outboundRun [List.replicate 20000 0]).2 =
      (writeFrameLoop (List.replicate 20000 0) 0 20000).1 ++ [] := by
    show (writeLoopFuel [List.replicate 20000 (0:Nat)].length
        (applyWrites connectedConn [List.replicate 20000 0])).2 = _
    simp only [List.length_cons, List.length_nil, writeLoopFuel, hstep]
  refine ⟨?_, ?_, ?_, by omega⟩
  · have h2 := congrArg List.length chunk20000
    rw [List.length_map] at h2
    rw [hframes, List.append_nil, h2]
    rfl
  · show (writeLoopFuel [List.replicate 20000 (0:Nat)].length
        (applyWrites connectedConn [List.replicate 20000 0])).1.sendNbUnacked = 20000
    rw [d3, hua0, hflat]
  · show Conn.Sent (writeLoopFuel [List.replicate 20000 (0:Nat)].length
        (applyWrites connectedConn [List.replicate 20000 0])).1 = 0
    unfold Conn.Sent
    rw [d4, a4]
    rfl

/-- Claim C3 as amended: `Sent()` reports the cumulative count the
remote peer has acknowledged (`sendNbAcked`, matching the method's own
doc comment "bytes sent and acked"): transmitting frames leaves it
unchanged, and it becomes `n` exactly when an inbound Ack frame
carrying `n` is processed. -/
theorem c3_amended_sent_tracks_acks (c : Conn) (n : Nat)
    (hc : c.connected = true) (hn : n < 2 ^ 64) :
    c.writeFrame.1.Sent = c.Sent ∧
    (c.writeFrame.1.readFrame (encodeAck n)).1.Sent = n := by
  obtain ⟨p1, p2⟩ := writeFrame_preserves c
  refine ⟨p1, ?_⟩
  have htag : beVal (beBytes 2 subprotoTagAck) = subprotoTagAck := by
    rw [beVal_beBytes]
    norm_num [subprotoTagAck]
  unfold Conn.readFrame encodeAck
  rw [readN_exact 2 (beBytes 2 subprotoTagAck) _ (beBytes_length 2 _)]
  simp only [htag]
  rw [if_neg (by norm_num [subprotoTagAck, subprotoTagSuccess])]
  rw [if_neg (by rw [p2, hc]; simp)]
  rw [if_pos trivial]
  unfold Conn.readAckFrame
  rw [readN_all 8 (beBytes 8 n) (beBytes_length 8 n)]
  show Conn.Sent { c.writeFrame.1 with sendNbAcked := beVal (beBytes 8 n) } = n
  unfold Conn.Sent
  show beVal (beBytes 8 n) = n
  rw [beVal_beBytes]
  refine Nat.mod_eq_of_lt ?_
  have : (256:Nat) ^ 8 = 2 ^ 64 := by norm_num
  omega

/-- Claim C3, amended-claim witness: the connection with the announced
20000-byte write; transmission keeps `Sent()` at 0, the Ack carrying
20000 sets it to 20000. -/
theorem c3_amended_witness :
    c3Conn.connected = true ∧ 20000 < 2 ^ 64 ∧
    (c3Conn.writeFrame.1.Sent = c3Conn.Sent ∧
      (c3Conn.writeFrame.1.readFrame (encodeAck 20000)).1.Sent = 20000) :=
  ⟨rfl, by norm_num, c3_amended_sent_tracks_acks c3Conn 20000 rfl (by norm_num)⟩

/-- Claim C4 as amended: processing any inbound frame preserves the
receive-side invariants — `recvNbUnacked` and `recvNbAcked` never
decrease, `recvNbAcked ≤ recvNbUnacked` is maintained (absent 64-bit
wraparound), and `sendNbUnacked` is untouched — and the outbound
chunking loop only ever increases `sendNbUnacked`; `sendNbAcked`,
however, is simply overwritten by whatever an Ack frame carries (see
the counterexample), so the claimed send-side invariant does not hold. -/
theorem c4_amended_counter_invariants (c : Conn) (msg : Bytes) (cd : Bytes) (ua nb : Nat)
    (hinv : c.recvNbAcked ≤ c.recvNbUnacked)
    (hbound : c.recvNbUnacked + subprotoMaxFrameSize < 2 ^ 64)
    (hw : ua + nb < 2 ^ 64) :
    c.recvNbUnacked ≤ (c.readFrame msg).1.recvNbUnacked ∧
    c.recvNbAcked ≤ (c.readFrame msg).1.recvNbAcked ∧
    (c.readFrame msg).1.recvNbAcked ≤ (c.readFrame msg).1.recvNbUnacked ∧
    (c.readFrame msg).1.sendNbUnacked = c.sendNbUnacked ∧
    ua ≤ (writeFrameLoop cd ua nb).2.2 := by
  have hwf : (writeFrameLoop cd ua nb).2.2 = ua + nb := (writeFrameLoop_spec nb cd ua hw).2.2.1
  have hlast : ua ≤ (writeFrameLoop cd ua nb).2.2 := by
    rw [hwf]
    omega
  have h64 : (2:Nat) ^ 64 = 18446744073709551616 := by norm_num
  have hmaxv : subprotoMaxFrameSize = 16384 := rfl
  rw [h64, hmaxv] at hbound
  refine ⟨?_, ?_, ?_, ?_, hlast⟩ <;>
  · unfold Conn.readFrame
    unfold readN
    by_cases hl : 2 ≤ msg.length
    case neg =>
      rw [if_neg hl]
      all_goals first | exact le_refl _ | exact hinv | rfl
    rw [if_pos hl]
    simp only
    by_cases hs : beVal (msg.take 2) = subprotoTagSuccess
    case pos =>
      rw [if_pos hs]
      unfold Conn.readSuccessFrame
      cases readN 4 (msg.drop 2) with
      | none =>
        all_goals first | exact le_refl _ | exact hinv | rfl
      | some pr =>
        obtain ⟨lenB, r1⟩ := pr
        dsimp only
        by_cases hx : beVal lenB > subprotoMaxFrameSize
        · rw [if_pos hx]
          all_goals first | exact le_refl _ | exact hinv | rfl
        · rw [if_neg hx]
          cases readN (beVal lenB) r1 with
          | none =>
            all_goals first | exact le_refl _ | exact hinv | rfl
          | some pr2 =>
            all_goals first | exact le_refl _ | exact hinv | rfl
    rw [if_neg hs]
    by_cases hc2 : c.connected = false
    case pos =>
      rw [if_pos hc2]
      all_goals first | exact le_refl _ | exact hinv | rfl
    rw [if_neg hc2]
    by_cases ha : beVal (msg.take 2) = subprotoTagAck
    case pos =>
      rw [if_pos ha]
      unfold Conn.readAckFrame
      cases readN 8 (msg.drop 2) with
      | none =>
        all_goals first | exact le_refl _ | exact hinv | rfl
      | some v =>
        all_goals first | exact le_refl _ | exact hinv | rfl
    rw [if_neg ha]
    by_cases hd : beVal (msg.take 2) = subprotoTagData
    case neg =>
      rw [if_neg hd]
      all_goals first | exact le_refl _ | exact hinv | rfl
    rw [if_pos hd]
    unfold Conn.readDataFrame
    unfold readN
    by_cases h4 : 4 ≤ (msg.drop 2).length
    case neg =>
      rw [if_neg h4]
      simp only
      by_cases ht : sub64 c.recvNbUnacked c.recvNbAcked > 2 * subprotoMaxFrameSize
      · rw [if_pos ht]
        all_goals first | exact le_refl _ | exact hinv | rfl
      · rw [if_neg ht]
        all_goals first | exact le_refl _ | exact hinv | rfl
    rw [if_pos h4]
    simp only
    by_cases hx : beVal ((msg.drop 2).take 4) > subprotoMaxFrameSize
    case pos =>
      rw [if_pos hx]
      simp only
      by_cases ht : sub64 c.recvNbUnacked c.recvNbAcked > 2 * subprotoMaxFrameSize
      · rw [if_pos ht]
        all_goals first | exact le_refl _ | exact hinv | rfl
      · rw [if_neg ht]
        all_goals first | exact le_refl _ | exact hinv | rfl
    rw [if_neg hx]
    simp only
    rw [hmaxv] at hx
    have hu : u64 (c.recvNbUnacked + beVal ((msg.drop 2).take 4)) =
        c.recvNbUnacked + beVal ((msg.drop 2).take 4) := by
      refine u64_of_lt _ ?_
      rw [h64]
      omega
    rw [hu]
    by_cases ht : sub64 (c.recvNbUnacked + beVal ((msg.drop 2).take 4))
        c.recvNbAcked > 2 * subprotoMaxFrameSize
    · rw [if_pos ht]
      all_goals first | exact le_refl _ | (dsimp only; omega) | rfl
    · rw [if_neg ht]
      all_goals first | exact le_refl _ | (dsimp only; omega) | rfl

/-- Claim C4, amended-claim witness: an established connection with
zero counters receiving an unknown-tag frame, with an idle chunking
loop. -/
theorem c4_amended_witness :
    connectedConn.recvNbAcked ≤ connectedConn.recvNbUnacked ∧
    connectedConn.recvNbUnacked + subprotoMaxFrameSize < 2 ^ 64 ∧
    (0:Nat) + 0 < 2 ^ 64 ∧
    (connectedConn.recvNbUnacked ≤ (connectedConn.readFrame [0, 9]).1.recvNbUnacked ∧
      connectedConn.recvNbAcked ≤ (connectedConn.readFrame [0, 9]).1.recvNbAcked ∧
      (connectedConn.readFrame [0, 9]).1.recvNbAcked ≤
        (connectedConn.readFrame [0, 9]).1.recvNbUnacked ∧
      (connectedConn.readFrame [0, 9]).1.sendNbUnacked = connectedConn.sendNbUnacked ∧
      0 ≤ (writeFrameLoop [] 0 0).2.2) :=
  ⟨by decide, by decide, by decide,
    c4_amended_counter_invariants connectedConn [0, 9] [] 0 0 (by decide) (by decide)
      (by decide)⟩

/-- Claim C10: after a successful `Close()`, a `Write` panics with a
send on the closed `sendNbCh` channel, and a second `Close()` panics
closing the already-closed channel. -/
theorem c10_use_after_close_panics (c c1 : Conn) (buf : Bytes)
    (h : Conn.Close c = Except.ok c1) :
    Conn.Write c1 buf = Except.error GoPanic.sendOnClosedChannel ∧
    Conn.Close c1 = Except.error GoPanic.closeOfClosedChannel := by
  unfold Conn.Close at h
  by_cases hc : c.sendNbChClosed
  · rw [if_pos hc] at h
    exact absurd h (by simp)
  · rw [if_neg hc] at h
    have h1 : c1 = { c with sendNbChClosed := true, wsClosed := true } := by
      cases h
      rfl
    subst h1
    constructor
    · unfold Conn.Write
      rw [if_pos (show Conn.sendNbChClosed { c with sendNbChClosed := true, wsClosed := true } = true from rfl)]
    · unfold Conn.Close
      rw [if_pos (show Conn.sendNbChClosed { c with sendNbChClosed := true, wsClosed := true } = true from rfl)]

/-- Claim C10, witness: closing a fresh connection, then writing and
closing again. -/
theorem c10_witness :
    Conn.Close initConn = Except.ok closedInitConn ∧
    Conn.Write closedInitConn [7] = Except.error GoPanic.sendOnClosedChannel ∧
    Conn.Close closedInitConn = Except.error GoPanic.closeOfClosedChannel :=
  ⟨rfl, c10_use_after_close_panics initConn closedInitConn [7] rfl⟩

end Iap
